import Mathlib

/-!
Verification of `src/database/CryptoID/CryptoID.db.ts`: a persisted-entity
store for CryptoID records and Profile records on top of a versioned
key-value storage engine (IndexedDB via `idb`).

The file under `src/` contains, as executable code: the lazy `db`
initializer with its schema-upgrade routine, and the four record
transcoders `profileIn`, `profileOut`, `cryptoKeyRecordIn`,
`cryptoKeyRecordOut`.  The CRUD operations (`createCryptoID_DB`,
`queryCryptoID_DB`, `updateCryptoID_DB`, `deleteCryptoID_DB`, ...) are
only declared (`declare function`) there, and the identifier types
(`PersonIdentifier`, `ECKeyIdentifier`, `Identifier.fromString`) are
imported from `../type`, which is not part of the sources.  Those missing
pieces are modelled from the specification; every such definition carries
a doc comment starting with `Modelled from the spec:`.

JavaScript strings are modelled as `List Char`, opaque `CryptoKey`
handles and `Date` values as tagged naturals, and the prototype link of a
JS object (which carries the variant-specific capability set, and which
`Object.setPrototypeOf` mutates in place) is modelled as an explicit
`Proto` field of identifier objects.
-/

/-- A JavaScript string (used for canonical identifier text and store keys). -/
abbrev Str := List Char

/-- Modelled from the spec: the discriminant `type` of an identifier, from
`../type` (not under src/).  Variants relevant here: a person identifier
and a key-based (`ec_key`) identifier. -/
inductive IdKind where
  | person
  | ecKeyKind
deriving DecidableEq, Repr

/-- Modelled from the spec: the value data of an identifier variant, from
`../type` (not under src/).  A person identifier is a stable handle to a
social profile (for example `person:alice`); a key-based identifier is
derived from a public-key fingerprint (for example `ec_key:0xABCD`). -/
inductive IdData where
  | person (userId : Str)
  | ecKey (fingerprint : Str)
deriving DecidableEq, Repr

/-- The `type` discriminant carried by the identifier's own data. -/
def IdData.kind : IdData → IdKind
  | .person _ => .person
  | .ecKey _ => .ecKeyKind

/-- The prototype link of a JS object holding an identifier.  A value that
went through structured clone (IndexedDB storage) has the plain
`Object.prototype`; a rich identifier has the prototype of its variant
class, which carries the variant-specific capability set. -/
inductive Proto where
  | plainObject
  | personProto
  | ecKeyProto
deriving DecidableEq, Repr

/-- The prototype that matches an identifier variant. -/
def IdKind.proto : IdKind → Proto
  | .person => .personProto
  | .ecKeyKind => .ecKeyProto

/-- A JS identifier object: its own data fields plus its prototype link. -/
structure IdObj where
  data : IdData
  proto : Proto
deriving DecidableEq, Repr

/-- An identifier object is well formed (rich) when its prototype matches
its variant: its capability set is the one of its discriminant. -/
def IdObj.wellFormed (i : IdObj) : Prop := i.proto = i.data.kind.proto

instance (i : IdObj) : Decidable i.wellFormed := by
  unfold IdObj.wellFormed; infer_instance

/-- The type tag opening the canonical text of a person identifier. -/
def personTag : Str := ['p', 'e', 'r', 's', 'o', 'n', ':']

/-- The type tag opening the canonical text of a key-based identifier. -/
def ecKeyTag : Str := ['e', 'c', '_', 'k', 'e', 'y', ':']

/-- Modelled from the spec: `toText` of `../type` (not under src/) —
`encode(identifier) -> string`, a canonical type-tagged string uniquely
representing the identifier. -/
def IdData.toText : IdData → Str
  | .person u => personTag ++ u
  | .ecKey f => ecKeyTag ++ f

/-- `toText` of an identifier object reads only its own data. -/
def IdObj.toText (i : IdObj) : Str := i.data.toText

/-- Error kinds surfaced by this layer. -/
inductive JsError where
  /-- `DecodeError`: unknown identifier type met by `Identifier.fromString`. -/
  | decodeError
  /-- the `Unknown type of linkedCryptoID` error thrown by `profileOut`. -/
  | unknownLinkedType
  /-- `NotFoundError`: update targeting a missing primary key. -/
  | notFoundError
deriving DecidableEq, Repr

deriving instance DecidableEq for Except

namespace Identifier

/-- Modelled from the spec: `Identifier.fromString` of `../type` (not under
src/) — `decode(string) -> Identifier` parses the type tag, constructs the
correct variant with its full capability set, and fails with a
`DecodeError` (unknown identifier type) when the tag matches no supported
variant. -/
def fromString (s : Str) : Except JsError IdObj :=
  if personTag.isPrefixOf s then
    .ok { data := .person (s.drop personTag.length), proto := .personProto }
  else if ecKeyTag.isPrefixOf s then
    .ok { data := .ecKey (s.drop ecKeyTag.length), proto := .ecKeyProto }
  else
    .error .decodeError

end Identifier

/-- An opaque, non-extractable `CryptoKey` handle (web crypto), modelled as
a tagged natural. -/
structure CryptoKey where
  handle : Nat
deriving DecidableEq, Repr

/-- The in-memory `ProfileRecord` of `CryptoID.db.ts` (lines 104-111):
identifier is a rich `PersonIdentifier`, `linkedCryptoID` an optional rich
`CryptoIDIdentifier`, `Date` fields modelled as naturals. -/
structure ProfileRecord where
  identifier : IdObj
  nickname : Option Str
  localKey : Option CryptoKey
  linkedCryptoID : Option IdObj
  createdAt : Nat
  updatedAt : Nat
deriving DecidableEq, Repr

/-- `ProfileRecordDb = Omit<ProfileRecord, 'identifier'> & { identifier: string }`
(line 123): the identifier is replaced by its encoded string; the nested
`linkedCryptoID` stays an object (after structured clone its prototype is
the plain one). -/
structure ProfileRecordDb where
  identifier : Str
  nickname : Option Str
  localKey : Option CryptoKey
  linkedCryptoID : Option IdObj
  createdAt : Nat
  updatedAt : Nat
deriving DecidableEq, Repr

/-- The in-memory `CryptoIDRecord` (lines 113-122); the JS
`Set<PersonIdentifier>` is modelled as a list in iteration order. -/
structure CryptoIDRecord where
  identifier : IdObj
  publicKey : CryptoKey
  privateKey : Option CryptoKey
  localKey : Option CryptoKey
  nickname : Str
  attachedProfiles : List IdObj
  createdAt : Nat
  updatedAt : Nat
deriving DecidableEq, Repr

/-- `CryptoIDRecordDb = Omit<CryptoIDRecord, 'identifier'> & { identifier: string }`
(line 124). -/
structure CryptoIDRecordDb where
  identifier : Str
  publicKey : CryptoKey
  privateKey : Option CryptoKey
  localKey : Option CryptoKey
  nickname : Str
  attachedProfiles : List IdObj
  createdAt : Nat
  updatedAt : Nat
deriving DecidableEq, Repr

/-- `profileIn` (lines 149-154): spread the record and replace `identifier`
with `x.identifier.toText()`; every other field, `linkedCryptoID` included,
is copied unchanged. -/
def profileIn (x : ProfileRecord) : ProfileRecordDb :=
  { identifier := x.identifier.toText
    nickname := x.nickname
    localKey := x.localKey
    linkedCryptoID := x.linkedCryptoID
    createdAt := x.createdAt
    updatedAt := x.updatedAt }

/-- `profileOut` (lines 155-161).  When `linkedCryptoID` is present:
if its `type` is `ec_key`, `Object.setPrototypeOf` mutates the nested
object's prototype in place; any other tag throws
`Unknown type of linkedCryptoID`.  Then the record is spread with
`identifier` parsed by `Identifier.fromString` (which can itself throw a
`DecodeError`).  The model makes the in-place mutation explicit: the result
pairs the returned record with the input object as it stands after the
call. -/
def profileOut (x : ProfileRecordDb) : Except JsError (ProfileRecord × ProfileRecordDb) := do
  let x' ← match x.linkedCryptoID with
    | none => Except.ok x
    | some l =>
      if l.data.kind = IdKind.ecKeyKind then
        Except.ok { x with linkedCryptoID := some { l with proto := Proto.ecKeyProto } }
      else
        Except.error JsError.unknownLinkedType
  let id ← Identifier.fromString x'.identifier
  Except.ok ({ identifier := id
               nickname := x'.nickname
               localKey := x'.localKey
               linkedCryptoID := x'.linkedCryptoID
               createdAt := x'.createdAt
               updatedAt := x'.updatedAt }, x')

/-- `cryptoKeyRecordIn` (lines 162-167): spread the record and replace
`identifier` with its encoded text; `attachedProfiles` members are copied
by reference, unchanged. -/
def cryptoKeyRecordIn (x : CryptoIDRecord) : CryptoIDRecordDb :=
  { identifier := x.identifier.toText
    publicKey := x.publicKey
    privateKey := x.privateKey
    localKey := x.localKey
    nickname := x.nickname
    attachedProfiles := x.attachedProfiles
    createdAt := x.createdAt
    updatedAt := x.updatedAt }

/-- `cryptoKeyRecordOut` (lines 168-173): `Object.setPrototypeOf` every
member of `attachedProfiles` to `PersonIdentifier.prototype` (in place,
unconditionally), then spread with `identifier` parsed by
`Identifier.fromString`.  As for `profileOut`, the result pairs the
returned record with the mutated input. -/
def cryptoKeyRecordOut (x : CryptoIDRecordDb) :
    Except JsError (CryptoIDRecord × CryptoIDRecordDb) := do
  let x' := { x with attachedProfiles :=
    x.attachedProfiles.map (fun e => { e with proto := Proto.personProto }) }
  let id ← Identifier.fromString x'.identifier
  Except.ok ({ identifier := id
               publicKey := x'.publicKey
               privateKey := x'.privateKey
               localKey := x'.localKey
               nickname := x'.nickname
               attachedProfiles := x'.attachedProfiles
               createdAt := x'.createdAt
               updatedAt := x'.updatedAt }, x')

/-- The two CryptoID object stores, each a list of records keyed inline by
the encoded `identifier` field. -/
structure DBState where
  self : List CryptoIDRecordDb
  others : List CryptoIDRecordDb
deriving DecidableEq, Repr

/-- The freshly-created database: both partitions empty. -/
def emptyDB : DBState := { self := [], others := [] }

/-- `get(key)` on an object store with inline keys. -/
def storeGet (s : List CryptoIDRecordDb) (k : Str) : Option CryptoIDRecordDb :=
  s.find? (fun r => decide (r.identifier = k))

/-- `put(value)` on an object store with inline keys: upsert — any record
with the same primary key is replaced, without error. -/
def storePut (s : List CryptoIDRecordDb) (v : CryptoIDRecordDb) : List CryptoIDRecordDb :=
  s.filter (fun r => decide (r.identifier ≠ v.identifier)) ++ [v]

/-- `delete(key)` on an object store with inline keys. -/
def storeDelete (s : List CryptoIDRecordDb) (k : Str) : List CryptoIDRecordDb :=
  s.filter (fun r => decide (r.identifier ≠ k))

/-- How many stored records carry the key `k` (for exactly-one-copy
statements). -/
def storeCount (s : List CryptoIDRecordDb) (k : Str) : Nat :=
  (s.filter (fun r => decide (r.identifier = k))).length

/-- Modelled from the spec: `createCryptoID_DB` is only declared in the
source (line 54).  Encode the record; if it contains `privateKey` store it
in `self`, otherwise in `others`, with `put` (upsert) semantics. -/
def createCryptoID_DB (r : CryptoIDRecord) (st : DBState) : DBState :=
  let rd := cryptoKeyRecordIn r
  if r.privateKey.isSome then { st with self := storePut st.self rd }
  else { st with others := storePut st.others rd }

/-- Modelled from the spec: the identifier form of `queryCryptoID_DB`,
only declared in the source (lines 59-61).  Encode the identifier, `get`
against `self` first and `others` second, decode the first hit; a miss in
both partitions is an empty result, not an exception. -/
def queryCryptoID_byId (id : IdObj) (st : DBState) : Except JsError (Option CryptoIDRecord) :=
  match storeGet st.self id.toText with
  | some r => (cryptoKeyRecordOut r).map (fun p => some p.1)
  | none =>
    match storeGet st.others id.toText with
    | some r => (cryptoKeyRecordOut r).map (fun p => some p.1)
    | none => Except.ok none

/-- Linear scan: decode each candidate in order and return the first
decoded record satisfying the predicate; decoding failures surface. -/
def scanFirst (q : CryptoIDRecord → Bool) :
    List CryptoIDRecordDb → Except JsError (Option CryptoIDRecord)
  | [] => Except.ok none
  | r :: rest =>
    match cryptoKeyRecordOut r with
    | .error e => .error e
    | .ok p => if q p.1 then Except.ok (some p.1) else scanFirst q rest

/-- Modelled from the spec: the predicate form of `queryCryptoID_DB`, only
declared in the source — a linear scan over both partitions (`self` then
`others`) returning the first match. -/
def queryCryptoID_byPred (q : CryptoIDRecord → Bool) (st : DBState) :
    Except JsError (Option CryptoIDRecord) :=
  scanFirst q (st.self ++ st.others)

/-- The two merge modes of `updateCryptoID_DB` (line 73). -/
inductive MergeMode where
  | append
  | overwrite
deriving DecidableEq, Repr

/-- `Partial<CryptoIDRecord> & Pick<CryptoIDRecord, 'identifier'>`
(line 72): every field optional except the identifier; an outer `none`
means the field is absent from the partial record. -/
structure CryptoIDRecordPartial where
  identifier : IdObj
  publicKey : Option CryptoKey
  privateKey : Option CryptoKey
  localKey : Option CryptoKey
  nickname : Option Str
  attachedProfiles : Option (List IdObj)
  createdAt : Option Nat
  updatedAt : Option Nat
deriving DecidableEq, Repr

/-- Set union in iteration order (for the `append` merge mode). -/
def listUnion (a b : List IdObj) : List IdObj :=
  a ++ b.filter (fun x => decide (¬ x ∈ a))

/-- Modelled from the spec: the merge step of `updateCryptoID_DB`.
`overwrite` replaces every field present in the partial record and keeps
the previous value of every missing field; `append` does the same for
scalar fields and unions the set-valued `attachedProfiles`.  The primary
key is unchanged. -/
def mergeCryptoID (old : CryptoIDRecordDb) (p : CryptoIDRecordPartial)
    (m : MergeMode) : CryptoIDRecordDb :=
  { identifier := old.identifier
    publicKey := p.publicKey.getD old.publicKey
    privateKey := p.privateKey.or old.privateKey
    localKey := p.localKey.or old.localKey
    nickname := p.nickname.getD old.nickname
    attachedProfiles :=
      match m, p.attachedProfiles with
      | _, none => old.attachedProfiles
      | .overwrite, some l => l
      | .append, some l => listUnion old.attachedProfiles l
    createdAt := p.createdAt.getD old.createdAt
    updatedAt := p.updatedAt.getD old.updatedAt }

/-- Modelled from the spec: `updateCryptoID_DB` is only declared in the
source (lines 71-74).  Read the existing record by identifier, checking
both partitions (`self` first); fail with `NotFoundError` when absent;
merge; re-evaluate partition membership from the merged `privateKey` and,
when it changed, delete from the old partition and `put` into the new
one. -/
def updateCryptoID_DB (p : CryptoIDRecordPartial) (m : MergeMode) (st : DBState) :
    Except JsError DBState :=
  match storeGet st.self p.identifier.toText with
  | some old =>
    if (mergeCryptoID old p m).privateKey.isSome then
      Except.ok { st with self := storePut st.self (mergeCryptoID old p m) }
    else
      Except.ok { self := storeDelete st.self p.identifier.toText
                  others := storePut st.others (mergeCryptoID old p m) }
  | none =>
    match storeGet st.others p.identifier.toText with
    | some old =>
      if (mergeCryptoID old p m).privateKey.isSome then
        Except.ok { self := storePut st.self (mergeCryptoID old p m)
                    others := storeDelete st.others p.identifier.toText }
      else
        Except.ok { st with others := storePut st.others (mergeCryptoID old p m) }
    | none => Except.error JsError.notFoundError

/-- Modelled from the spec: `deleteCryptoID_DB` is only declared in the
source (line 79).  Delete from whichever partition currently holds the
identifier; deleting a missing identifier is a no-op. -/
def deleteCryptoID_DB (id : IdObj) (st : DBState) : DBState :=
  { self := storeDelete st.self id.toText
    others := storeDelete st.others id.toText }

/-- The CryptoID operations of the Record Access API, for reachability. -/
inductive DBOp where
  | create (r : CryptoIDRecord)
  | update (p : CryptoIDRecordPartial) (m : MergeMode)
  | deleteOp (id : IdObj)

/-- One API call applied to a storage state; a failing update leaves the
state as it was. -/
def applyOp (st : DBState) : DBOp → DBState
  | .create r => createCryptoID_DB r st
  | .update p m =>
    match updateCryptoID_DB p m st with
    | .ok st' => st'
    | .error _ => st
  | .deleteOp id => deleteCryptoID_DB id st

/-- The storage state reached from the fresh database by a sequence of API
calls. -/
def runOps (ops : List DBOp) : DBState := ops.foldl applyOp emptyDB

/-- The partition invariant: every record in `self` carries a private key
handle, every record in `others` lacks one, and no identifier stored in
`self` is also stored in `others`. -/
def PartitionInv (st : DBState) : Prop :=
  (∀ r ∈ st.self, r.privateKey.isSome = true) ∧
  (∀ r ∈ st.others, r.privateKey = none) ∧
  (∀ r ∈ st.self, storeGet st.others r.identifier = none)

instance (st : DBState) : Decidable (PartitionInv st) := by
  unfold PartitionInv; infer_instance

/-- The module-level state of the `db` closure (lines 29-46) together with
the bookkeeping of two concurrent callers: `dbVar` is the `let db`
variable, `openCount` how many times `openDB` has been invoked,
`started0/started1` whether each caller's `openDB` call is in flight, and
`result0/result1` the handle each caller's returned promise resolves to. -/
structure InitState where
  dbVar : Option Nat
  openCount : Nat
  started0 : Bool
  started1 : Bool
  result0 : Option Nat
  result1 : Option Nat
deriving DecidableEq, Repr

/-- The state before any call: `db` is undefined, nothing opened. -/
def initIdle : InitState :=
  { dbVar := none, openCount := 0, started0 := false, started1 := false
    result0 := none, result1 := none }

/-- The distinct handle produced by each caller's own `openDB` invocation. -/
def handleFor (c : Bool) : Nat := if c then 2 else 1

/-- The atomic events of the `db` closure under two callers.  `call c` is
caller `c` running the synchronous body: it reads `db`, and either starts
its own `openDB` (when `typeof db === 'undefined'`) or returns the stored
handle.  `resolve c` is the later microtask in which caller `c`'s
`openDB(...).then(x => (db = x))` resolves: it assigns the module variable
and resolves that caller's promise with its own handle. -/
inductive InitEvt where
  | call (c : Bool)
  | resolve (c : Bool)
deriving DecidableEq, Repr

/-- One atomic step of the `db` closure (lines 31-45). -/
def initStep (s : InitState) : InitEvt → InitState
  | .call c =>
    match s.dbVar with
    | none =>
      if c then { s with openCount := s.openCount + 1, started1 := true }
      else { s with openCount := s.openCount + 1, started0 := true }
    | some h =>
      if c then { s with result1 := some h } else { s with result0 := some h }
  | .resolve c =>
    if c then
      if s.started1 then
        { s with dbVar := some (handleFor true), result1 := some (handleFor true) }
      else s
    else
      if s.started0 then
        { s with dbVar := some (handleFor false), result0 := some (handleFor false) }
      else s

/-- Run a schedule of events from the idle state. -/
def runInit (evts : List InitEvt) : InitState := evts.foldl initStep initIdle

/-- The racy schedule: both callers run the synchronous body before either
`openDB` has resolved. -/
def raceSchedule : List InitEvt :=
  [InitEvt.call false, InitEvt.call true, InitEvt.resolve false, InitEvt.resolve true]

/-- A serialized schedule: the second caller arrives after the first
initialization resolved. -/
def seqSchedule : List InitEvt :=
  [InitEvt.call false, InitEvt.resolve false, InitEvt.call true]

/-- A secondary index of an object store. -/
structure IndexSpec where
  name : String
  keyPath : String
  unique : Bool
deriving DecidableEq, Repr

/-- An object store: name, inline key path, secondary indexes. -/
structure StoreSpec where
  name : String
  keyPath : String
  indexes : List IndexSpec
deriving DecidableEq, Repr

/-- The schema of the database: its object stores in creation order. -/
structure Schema where
  stores : List StoreSpec
deriving DecidableEq, Repr

/-- `db.createObjectStore(n, { keyPath: kp })`. -/
def createObjectStore (s : Schema) (n kp : String) : Schema :=
  { stores := s.stores ++ [{ name := n, keyPath := kp, indexes := [] }] }

/-- `transaction.objectStore(store).createIndex(idx, kp, { unique })`. -/
def createIndexOn (s : Schema) (store idx kp : String) (uniq : Bool) : Schema :=
  { stores := s.stores.map (fun st =>
      if st.name = store then
        { st with indexes := st.indexes ++ [{ name := idx, keyPath := kp, unique := uniq }] }
      else st) }

/-- `v0_v1` (lines 35-40): create the `self`, `others` and `profiles`
stores, each keyed inline on `identifier`, and the non-unique `network`
index on `profiles`. -/
def v0_v1 (s : Schema) : Schema :=
  let s1 := createObjectStore s "self" "identifier"
  let s2 := createObjectStore s1 "others" "identifier"
  let s3 := createObjectStore s2 "profiles" "identifier"
  createIndexOn s3 "profiles" "network" "network" false

/-- The `upgrade` callback (lines 34-42): run `v0_v1` exactly when the
previous version is below 1 (the `newVersion` argument is unused by the
source body). -/
def upgrade (s : Schema) (oldVersion : Nat) : Schema :=
  if oldVersion < 1 then v0_v1 s else s

/-- The schema of a store that has never been opened. -/
def emptySchema : Schema := { stores := [] }

/-- A rich key-based identifier, for concrete checks. -/
def sampleEcId : IdObj :=
  { data := IdData.ecKey ['0', 'x', 'A', 'B'], proto := Proto.ecKeyProto }

/-- A rich person identifier, for concrete checks. -/
def samplePersonId : IdObj :=
  { data := IdData.person ['a', 'l', 'i', 'c', 'e'], proto := Proto.personProto }

/-- A concrete in-memory CryptoID record without a private key handle. -/
def sampleCryptoRec : CryptoIDRecord :=
  { identifier := sampleEcId, publicKey := { handle := 1 }, privateKey := none,
    localKey := none, nickname := ['k'], attachedProfiles := [samplePersonId],
    createdAt := 0, updatedAt := 0 }

/-- A concrete in-memory profile record linked to a rich key-based
identifier. -/
def sampleProfile : ProfileRecord :=
  { identifier := samplePersonId, nickname := some ['A'], localKey := none,
    linkedCryptoID := some sampleEcId, createdAt := 0, updatedAt := 0 }

/-- A stored profile record as it comes back from IndexedDB: the nested
linked identifier still has the `ec_key` type tag but carries the plain
object prototype, because structured clone drops prototypes. -/
def storedProfile : ProfileRecordDb :=
  { identifier := samplePersonId.toText, nickname := none, localKey := none,
    linkedCryptoID := some { data := IdData.ecKey ['0'], proto := Proto.plainObject },
    createdAt := 0, updatedAt := 0 }

/-- `storedProfile` as `profileOut` leaves it: the nested object's
prototype has been switched in place. -/
def storedProfileAfter : ProfileRecordDb :=
  { storedProfile with
    linkedCryptoID := some { data := IdData.ecKey ['0'], proto := Proto.ecKeyProto } }

/-- The record `profileOut` returns for `storedProfile`. -/
def storedProfileDecoded : ProfileRecord :=
  { identifier := samplePersonId, nickname := none, localKey := none,
    linkedCryptoID := some { data := IdData.ecKey ['0'], proto := Proto.ecKeyProto },
    createdAt := 0, updatedAt := 0 }

/-- A stored profile whose linked identifier carries a person tag, which is
unsupported for this field. -/
def storedProfileBadLink : ProfileRecordDb :=
  { storedProfile with
    linkedCryptoID := some { data := IdData.person ['x'], proto := Proto.plainObject } }

/-- A stored CryptoID record as structured clone returns it. -/
def storedCryptoRec : CryptoIDRecordDb :=
  { identifier := sampleEcId.toText, publicKey := { handle := 1 }, privateKey := none,
    localKey := none, nickname := ['k'],
    attachedProfiles := [{ data := IdData.person ['b'], proto := Proto.plainObject }],
    createdAt := 0, updatedAt := 0 }

/-- A CryptoID record carrying a private key handle. -/
def recWithKey : CryptoIDRecord :=
  { identifier := sampleEcId, publicKey := { handle := 1 },
    privateKey := some { handle := 2 }, localKey := none, nickname := [],
    attachedProfiles := [], createdAt := 0, updatedAt := 0 }

/-- A record with the same identifier but no private key handle. -/
def recNoKey : CryptoIDRecord := { recWithKey with privateKey := none }

/-- The state after storing `recNoKey`: the record sits in `others`. -/
def stOthersOnly : DBState := runOps [DBOp.create recNoKey]

/-- The partial update adding a private key handle to `sampleEcId`. -/
def addKeyPartial : CryptoIDRecordPartial :=
  { identifier := sampleEcId, publicKey := none, privateKey := some { handle := 2 },
    localKey := none, nickname := none, attachedProfiles := none,
    createdAt := none, updatedAt := none }

/-- The state after the key-adding update ran on `stOthersOnly`. -/
def stAfterMove : DBState :=
  applyOp stOthersOnly (DBOp.update addKeyPartial MergeMode.overwrite)

theorem isPrefixOf_append_self (t u : List Char) : t.isPrefixOf (t ++ u) = true := by
  induction t with
  | nil => simp [List.isPrefixOf]
  | cons c t ih => simp [List.isPrefixOf, ih]

theorem personTag_not_pre_ecKey (u : Str) : personTag.isPrefixOf (ecKeyTag ++ u) = false := by
  simp [personTag, ecKeyTag, List.isPrefixOf]

/-- Decoding the canonical text of any identifier data reconstructs the
data together with the matching variant prototype. -/
theorem fromString_toText (d : IdData) :
    Identifier.fromString d.toText = .ok { data := d, proto := d.kind.proto } := by
  cases d with
  | person u =>
      simp [Identifier.fromString, IdData.toText, isPrefixOf_append_self,
        List.drop_left, IdData.kind, IdKind.proto]
  | ecKey f =>
      simp [Identifier.fromString, IdData.toText, isPrefixOf_append_self,
        personTag_not_pre_ecKey, List.drop_left, IdData.kind, IdKind.proto]

theorem fromString_toText_wf (i : IdObj) (h : i.wellFormed) :
    Identifier.fromString i.toText = .ok i := by
  cases i with
  | mk d pr =>
    have h' : pr = d.kind.proto := h
    subst h'
    exact fromString_toText d

theorem map_patchPerson_eq_self (l : List IdObj)
    (h : ∀ m ∈ l, m.proto = Proto.personProto) :
    l.map (fun e => { e with proto := Proto.personProto }) = l := by
  induction l with
  | nil => rfl
  | cons a t ih =>
    have ha : a.proto = Proto.personProto := h a (by simp)
    have ha' : ({ a with proto := Proto.personProto } : IdObj) = a := by
      cases a; simp_all
    simp only [List.map_cons, ha']
    rw [ih (fun m hm => h m (by simp [hm]))]

theorem profileOut_linked_none (x : ProfileRecordDb) (hx : x.linkedCryptoID = none) :
    profileOut x = (Identifier.fromString x.identifier).map (fun id =>
      ({ identifier := id, nickname := x.nickname, localKey := x.localKey,
         linkedCryptoID := x.linkedCryptoID, createdAt := x.createdAt,
         updatedAt := x.updatedAt }, x)) := by
  unfold profileOut
  rw [hx]
  cases hfs : Identifier.fromString x.identifier <;>
    simp [Except.map, hfs, Bind.bind, Except.bind, hx]

theorem profileOut_linked_ec (x : ProfileRecordDb) (l : IdObj)
    (hx : x.linkedCryptoID = some l) (hk : l.data.kind = IdKind.ecKeyKind) :
    profileOut x = (Identifier.fromString x.identifier).map (fun id =>
      ({ identifier := id, nickname := x.nickname, localKey := x.localKey,
         linkedCryptoID := some { l with proto := Proto.ecKeyProto },
         createdAt := x.createdAt, updatedAt := x.updatedAt },
       { x with linkedCryptoID := some { l with proto := Proto.ecKeyProto } })) := by
  unfold profileOut
  rw [hx]
  cases hfs : Identifier.fromString x.identifier <;>
    simp [Except.map, hfs, Bind.bind, Except.bind, hk]

theorem profileOut_linked_bad (x : ProfileRecordDb) (l : IdObj)
    (hx : x.linkedCryptoID = some l) (hk : l.data.kind ≠ IdKind.ecKeyKind) :
    profileOut x = .error JsError.unknownLinkedType := by
  unfold profileOut
  rw [hx]
  simp [hk, Bind.bind, Except.bind]

theorem cryptoKeyRecordOut_eq (x : CryptoIDRecordDb) :
    cryptoKeyRecordOut x = (Identifier.fromString x.identifier).map (fun id =>
      ({ identifier := id, publicKey := x.publicKey, privateKey := x.privateKey,
         localKey := x.localKey, nickname := x.nickname,
         attachedProfiles :=
           x.attachedProfiles.map (fun e => { e with proto := Proto.personProto }),
         createdAt := x.createdAt, updatedAt := x.updatedAt },
       { x with attachedProfiles :=
           x.attachedProfiles.map (fun e => { e with proto := Proto.personProto }) })) := by
  unfold cryptoKeyRecordOut
  cases hfs : Identifier.fromString x.identifier <;>
    simp [Except.map, hfs, Bind.bind, Except.bind]

/-- C1: for every well-formed identifier, decoding the canonical string
produced by encoding it yields an identifier equal to the original, in
value and in variant prototype (capability set); lifted to records,
`cryptoKeyRecordOut` after `cryptoKeyRecordIn` returns every
`CryptoIDRecord` unchanged (given rich member identifiers), and
`profileOut` after `profileIn` returns every `ProfileRecord` unchanged
when its `linkedCryptoID` is absent or a rich key-based identifier. -/
theorem c1_roundTrip :
    (∀ i : IdObj, i.wellFormed → Identifier.fromString i.toText = .ok i) ∧
    (∀ r : CryptoIDRecord, r.identifier.wellFormed →
      (∀ m ∈ r.attachedProfiles, m.proto = Proto.personProto) →
      cryptoKeyRecordOut (cryptoKeyRecordIn r) = .ok (r, cryptoKeyRecordIn r)) ∧
    (∀ p : ProfileRecord, p.identifier.wellFormed →
      (p.linkedCryptoID = none ∨ ∃ l, p.linkedCryptoID = some l ∧
        l.data.kind = IdKind.ecKeyKind ∧ l.proto = Proto.ecKeyProto) →
      profileOut (profileIn p) = .ok (p, profileIn p)) := by
  refine ⟨fromString_toText_wf, ?_, ?_⟩
  · intro r hw hm
    have hfs : Identifier.fromString (cryptoKeyRecordIn r).identifier = .ok r.identifier :=
      fromString_toText_wf r.identifier hw
    have hmap : (cryptoKeyRecordIn r).attachedProfiles.map
        (fun e => { e with proto := Proto.personProto }) = r.attachedProfiles :=
      map_patchPerson_eq_self r.attachedProfiles hm
    rw [cryptoKeyRecordOut_eq, hfs]
    simp only [Except.map, hmap]
    cases r
    rfl
  · intro p hw hl
    have hfs : Identifier.fromString (profileIn p).identifier = .ok p.identifier :=
      fromString_toText_wf p.identifier hw
    rcases hl with hnone | ⟨l, hsome, hk, hpr⟩
    · have hx : (profileIn p).linkedCryptoID = none := hnone
      rw [profileOut_linked_none (profileIn p) hx, hfs]
      simp only [Except.map]
      cases p
      simp_all [profileIn]
    · have hx : (profileIn p).linkedCryptoID = some l := hsome
      have hl' : ({ l with proto := Proto.ecKeyProto } : IdObj) = l := by
        cases l; simp_all
      rw [profileOut_linked_ec (profileIn p) l hx hk]
      rw [hfs]
      simp only [Except.map, hl']
      cases p
      simp_all [profileIn]

/-- C9: `profileIn` returns a storage record equal to its input in every
field except `identifier`, which is replaced by the identifier's canonical
string; the nested `linkedCryptoID` is left untouched as a rich object;
likewise `cryptoKeyRecordIn` replaces only the identifier field and leaves
the `attachedProfiles` members and all other fields unchanged. -/
theorem c9_in_frame :
    (∀ p : ProfileRecord,
      (profileIn p).identifier = p.identifier.toText ∧
      (profileIn p).nickname = p.nickname ∧
      (profileIn p).localKey = p.localKey ∧
      (profileIn p).linkedCryptoID = p.linkedCryptoID ∧
      (profileIn p).createdAt = p.createdAt ∧
      (profileIn p).updatedAt = p.updatedAt) ∧
    (∀ r : CryptoIDRecord,
      (cryptoKeyRecordIn r).identifier = r.identifier.toText ∧
      (cryptoKeyRecordIn r).publicKey = r.publicKey ∧
      (cryptoKeyRecordIn r).privateKey = r.privateKey ∧
      (cryptoKeyRecordIn r).localKey = r.localKey ∧
      (cryptoKeyRecordIn r).nickname = r.nickname ∧
      (cryptoKeyRecordIn r).attachedProfiles = r.attachedProfiles ∧
      (cryptoKeyRecordIn r).createdAt = r.createdAt ∧
      (cryptoKeyRecordIn r).updatedAt = r.updatedAt) :=
  ⟨fun _ => ⟨rfl, rfl, rfl, rfl, rfl, rfl⟩,
   fun _ => ⟨rfl, rfl, rfl, rfl, rfl, rfl, rfl, rfl⟩⟩

/-- C3 counterexample: `profileOut` is not side-effect free on its input.
On `storedProfile` it returns successfully, but it has switched the
prototype of the nested `linkedCryptoID` object in place
(`Object.setPrototypeOf`), so after the call the input record differs from
what was passed in. -/
theorem c3_pure_counterexample :
    profileOut storedProfile = .ok (storedProfileDecoded, storedProfileAfter) ∧
    storedProfileAfter ≠ storedProfile := by decide

/-- C3 amended: `profileIn` and `cryptoKeyRecordIn` are pure, and the
decode-direction transcoders mutate nothing except the prototype link of
the nested identifier objects: every own data field of the input record,
and the data of every object nested inside it, is left unmodified; every
failure is raised synchronously as the function's result, never
swallowed. -/
theorem c3_effects :
    (∀ x r, profileOut x = .ok r →
      r.2.identifier = x.identifier ∧ r.2.nickname = x.nickname ∧
      r.2.localKey = x.localKey ∧ r.2.createdAt = x.createdAt ∧
      r.2.updatedAt = x.updatedAt ∧
      r.2.linkedCryptoID.map IdObj.data = x.linkedCryptoID.map IdObj.data) ∧
    (∀ x r, cryptoKeyRecordOut x = .ok r →
      r.2.identifier = x.identifier ∧ r.2.publicKey = x.publicKey ∧
      r.2.privateKey = x.privateKey ∧ r.2.localKey = x.localKey ∧
      r.2.nickname = x.nickname ∧ r.2.createdAt = x.createdAt ∧
      r.2.updatedAt = x.updatedAt ∧
      r.2.attachedProfiles.map IdObj.data = x.attachedProfiles.map IdObj.data) := by
  constructor
  · intro x r h
    cases hx : x.linkedCryptoID with
    | none =>
      rw [profileOut_linked_none x hx] at h
      cases hfs : Identifier.fromString x.identifier with
      | error e => rw [hfs] at h; simp [Except.map] at h
      | ok i =>
        rw [hfs] at h
        simp only [Except.map, Except.ok.injEq] at h
        subst h
        simp [hx]
    | some l =>
      by_cases hk : l.data.kind = IdKind.ecKeyKind
      · rw [profileOut_linked_ec x l hx hk] at h
        cases hfs : Identifier.fromString x.identifier with
        | error e => rw [hfs] at h; simp [Except.map] at h
        | ok i =>
          rw [hfs] at h
          simp only [Except.map, Except.ok.injEq] at h
          subst h
          simp [hx]
      · rw [profileOut_linked_bad x l hx hk] at h
        simp at h
  · intro x r h
    rw [cryptoKeyRecordOut_eq x] at h
    cases hfs : Identifier.fromString x.identifier with
    | error e => rw [hfs] at h; simp [Except.map] at h
    | ok i =>
      rw [hfs] at h
      simp only [Except.map, Except.ok.injEq] at h
      subst h
      simp

/-- C3 amended, witnessed on `storedProfile`: the mutated input keeps its
identifier string and the data of its nested linked identifier. -/
theorem c3_effects_witness :
    storedProfileAfter.identifier = storedProfile.identifier ∧
    storedProfileAfter.linkedCryptoID.map IdObj.data =
      storedProfile.linkedCryptoID.map IdObj.data :=
  ⟨(c3_effects.1 storedProfile (storedProfileDecoded, storedProfileAfter) (by decide)).1,
   (c3_effects.1 storedProfile (storedProfileDecoded, storedProfileAfter)
      (by decide)).2.2.2.2.2⟩

/-- C4: for every stored profile record whose `linkedCryptoID` is present,
`profileOut` restores the key-based variant's prototype (capability set)
when the field's type tag is the key-based variant, fails with the fatal
unknown-type error for any other tag, and never returns a record whose
linked identifier is of an unsupported variant or lacks the restored
capability set. -/
theorem c4_linked_decode :
    (∀ x l r, x.linkedCryptoID = some l → l.data.kind = IdKind.ecKeyKind →
      profileOut x = .ok r →
      r.1.linkedCryptoID = some { data := l.data, proto := Proto.ecKeyProto }) ∧
    (∀ x l, x.linkedCryptoID = some l → l.data.kind ≠ IdKind.ecKeyKind →
      profileOut x = .error JsError.unknownLinkedType) ∧
    (∀ x r l, profileOut x = .ok r → r.1.linkedCryptoID = some l →
      l.data.kind = IdKind.ecKeyKind ∧ l.proto = Proto.ecKeyProto) := by
  refine ⟨?_, profileOut_linked_bad, ?_⟩
  · intro x l r hx hk h
    rw [profileOut_linked_ec x l hx hk] at h
    cases hfs : Identifier.fromString x.identifier with
    | error e => rw [hfs] at h; simp [Except.map] at h
    | ok i =>
      rw [hfs] at h
      simp only [Except.map, Except.ok.injEq] at h
      subst h
      rfl
  · intro x r l h hl
    cases hx : x.linkedCryptoID with
    | none =>
      rw [profileOut_linked_none x hx] at h
      cases hfs : Identifier.fromString x.identifier with
      | error e => rw [hfs] at h; simp [Except.map] at h
      | ok i =>
        rw [hfs] at h
        simp only [Except.map, Except.ok.injEq] at h
        subst h
        simp [hx] at hl
    | some l' =>
      by_cases hk : l'.data.kind = IdKind.ecKeyKind
      · rw [profileOut_linked_ec x l' hx hk] at h
        cases hfs : Identifier.fromString x.identifier with
        | error e => rw [hfs] at h; simp [Except.map] at h
        | ok i =>
          rw [hfs] at h
          simp only [Except.map, Except.ok.injEq] at h
          subst h
          simp only [Option.some.injEq] at hl
          subst hl
          exact ⟨hk, rfl⟩
      · rw [profileOut_linked_bad x l' hx hk] at h
        simp at h

/-- C4, witnessed: the decoded `storedProfile` carries the restored
key-based prototype on its linked identifier, and a person-tagged stored
link makes `profileOut` fail with the unknown-type error. -/
theorem c4_linked_decode_witness :
    (profileOut storedProfile).map
        (fun r => r.1.linkedCryptoID =
          some { data := IdData.ecKey ['0'], proto := Proto.ecKeyProto }) =
      .ok True ∧
    profileOut storedProfileBadLink = .error JsError.unknownLinkedType := by
  constructor
  · have h := c4_linked_decode.1 storedProfile
      { data := IdData.ecKey ['0'], proto := Proto.plainObject }
      (storedProfileDecoded, storedProfileAfter) (by decide) (by decide) (by decide)
    rw [show profileOut storedProfile = .ok (storedProfileDecoded, storedProfileAfter)
      from by decide]
    simpa [Except.map] using h
  · exact c4_linked_decode.2.1 storedProfileBadLink
      { data := IdData.person ['x'], proto := Proto.plainObject } (by decide) (by decide)

/-- C10: granted that the stored identifier string itself parses
(`Identifier.fromString` succeeds), `profileOut` returns normally whenever
`linkedCryptoID` is absent or tagged `ec_key`, it fails only when a linked
identifier with a different tag is present, and `cryptoKeyRecordOut`
returns normally on every input — the error branch is unreachable under
these preconditions. -/
theorem c10_totality :
    (∀ x : ProfileRecordDb, (∃ i, Identifier.fromString x.identifier = .ok i) →
      (x.linkedCryptoID = none ∨
        ∃ l, x.linkedCryptoID = some l ∧ l.data.kind = IdKind.ecKeyKind) →
      ∃ r, profileOut x = .ok r) ∧
    (∀ (x : ProfileRecordDb) (e : JsError), profileOut x = .error e →
      (∃ i, Identifier.fromString x.identifier = .ok i) →
      ∃ l, x.linkedCryptoID = some l ∧ l.data.kind ≠ IdKind.ecKeyKind) ∧
    (∀ x : CryptoIDRecordDb, (∃ i, Identifier.fromString x.identifier = .ok i) →
      ∃ r, cryptoKeyRecordOut x = .ok r) := by
  refine ⟨?_, ?_, ?_⟩
  · intro x ⟨i, hi⟩ hl
    rcases hl with hx | ⟨l, hx, hk⟩
    · rw [profileOut_linked_none x hx, hi]
      exact ⟨_, rfl⟩
    · rw [profileOut_linked_ec x l hx hk, hi]
      exact ⟨_, rfl⟩
  · intro x e h ⟨i, hi⟩
    cases hx : x.linkedCryptoID with
    | none =>
      rw [profileOut_linked_none x hx, hi] at h
      simp [Except.map] at h
    | some l =>
      by_cases hk : l.data.kind = IdKind.ecKeyKind
      · rw [profileOut_linked_ec x l hx hk, hi] at h
        simp [Except.map] at h
      · exact ⟨l, rfl, hk⟩
  · intro x ⟨i, hi⟩
    rw [cryptoKeyRecordOut_eq x, hi]
    exact ⟨_, rfl⟩

/-- C10, witnessed: `profileOut` succeeds on the concrete `storedProfile`
and `cryptoKeyRecordOut` succeeds on the concrete `storedCryptoRec`. -/
theorem c10_totality_witness :
    (∃ r, profileOut storedProfile = Except.ok r) ∧
    (∃ r, cryptoKeyRecordOut storedCryptoRec = Except.ok r) :=
  ⟨c10_totality.1 storedProfile ⟨samplePersonId, by decide⟩
      (Or.inr ⟨{ data := IdData.ecKey ['0'], proto := Proto.plainObject },
        by decide, by decide⟩),
   c10_totality.2.2 storedCryptoRec ⟨sampleEcId, by decide⟩⟩

/-- C1, witnessed on concrete records: a key-based identifier, a CryptoID
record with one attached person identifier, and a profile linked to a rich
key-based identifier all survive the encode-decode round trip. -/
theorem c1_roundTrip_witness :
    Identifier.fromString sampleEcId.toText = .ok sampleEcId ∧
    cryptoKeyRecordOut (cryptoKeyRecordIn sampleCryptoRec) =
      .ok (sampleCryptoRec, cryptoKeyRecordIn sampleCryptoRec) ∧
    profileOut (profileIn sampleProfile) = .ok (sampleProfile, profileIn sampleProfile) :=
  ⟨c1_roundTrip.1 sampleEcId (by decide),
   c1_roundTrip.2.1 sampleCryptoRec (by decide) (by decide),
   c1_roundTrip.2.2 sampleProfile (by decide)
     (Or.inr ⟨sampleEcId, rfl, by decide, by decide⟩)⟩

theorem storeGet_eq_some (s : List CryptoIDRecordDb) (k : Str) (r : CryptoIDRecordDb)
    (h : storeGet s k = some r) : r ∈ s ∧ r.identifier = k := by
  unfold storeGet at h
  refine ⟨List.mem_of_find?_eq_some h, ?_⟩
  have := List.find?_some h
  simpa using this

theorem storeGet_eq_none_iff (s : List CryptoIDRecordDb) (k : Str) :
    storeGet s k = none ↔ ∀ r ∈ s, r.identifier ≠ k := by
  unfold storeGet
  simp [List.find?_eq_none]

theorem mem_storePut (s : List CryptoIDRecordDb) (v r : CryptoIDRecordDb)
    (h : r ∈ storePut s v) : r = v ∨ (r ∈ s ∧ r.identifier ≠ v.identifier) := by
  unfold storePut at h
  rcases List.mem_append.mp h with h1 | h1
  · have := List.mem_filter.mp h1
    right
    refine ⟨this.1, ?_⟩
    simpa using this.2
  · left
    simpa using h1

theorem mem_storeDelete (s : List CryptoIDRecordDb) (k : Str) (r : CryptoIDRecordDb)
    (h : r ∈ storeDelete s k) : r ∈ s ∧ r.identifier ≠ k := by
  unfold storeDelete at h
  have := List.mem_filter.mp h
  refine ⟨this.1, ?_⟩
  simpa using this.2

theorem storeGet_storeDelete_self (s : List CryptoIDRecordDb) (k : Str) :
    storeGet (storeDelete s k) k = none := by
  rw [storeGet_eq_none_iff]
  intro r hr
  exact (mem_storeDelete s k r hr).2

theorem storeGet_storeDelete_none (s : List CryptoIDRecordDb) (k k' : Str)
    (h : storeGet s k' = none) : storeGet (storeDelete s k) k' = none := by
  rw [storeGet_eq_none_iff] at h ⊢
  intro r hr
  exact h r (mem_storeDelete s k r hr).1

theorem storeGet_storePut_none (s : List CryptoIDRecordDb) (v : CryptoIDRecordDb)
    (k : Str) (hk : k ≠ v.identifier) (h : storeGet s k = none) :
    storeGet (storePut s v) k = none := by
  rw [storeGet_eq_none_iff] at h ⊢
  intro r hr
  rcases mem_storePut s v r hr with h1 | h1
  · subst h1
    exact fun he => hk he.symm
  · exact h r h1.1

theorem storeCount_storePut (s : List CryptoIDRecordDb) (v : CryptoIDRecordDb) :
    storeCount (storePut s v) v.identifier = 1 := by
  unfold storeCount storePut
  rw [List.filter_append]
  have h1 : (s.filter (fun r => decide (r.identifier ≠ v.identifier))).filter
      (fun r => decide (r.identifier = v.identifier)) = [] := by
    rw [List.filter_eq_nil_iff]
    intro a ha
    have := List.mem_filter.mp ha
    simpa using this.2
  rw [h1]
  simp

theorem storeCount_storeDelete (s : List CryptoIDRecordDb) (k : Str) :
    storeCount (storeDelete s k) k = 0 := by
  unfold storeCount storeDelete
  have h1 : (s.filter (fun r => decide (r.identifier ≠ k))).filter
      (fun r => decide (r.identifier = k)) = [] := by
    rw [List.filter_eq_nil_iff]
    intro a ha
    have := List.mem_filter.mp ha
    simpa using this.2
  rw [h1]
  rfl

theorem mergeCryptoID_identifier (old : CryptoIDRecordDb) (p : CryptoIDRecordPartial)
    (m : MergeMode) : (mergeCryptoID old p m).identifier = old.identifier := rfl

theorem mergeCryptoID_privateKey (old : CryptoIDRecordDb) (p : CryptoIDRecordPartial)
    (m : MergeMode) : (mergeCryptoID old p m).privateKey = p.privateKey.or old.privateKey :=
  rfl

theorem createCryptoID_DB_preserves (r : CryptoIDRecord) (st : DBState)
    (hInv : PartitionInv st)
    (h1 : r.privateKey.isSome = true →
      storeGet st.others (cryptoKeyRecordIn r).identifier = none)
    (h2 : r.privateKey = none →
      storeGet st.self (cryptoKeyRecordIn r).identifier = none) :
    PartitionInv (createCryptoID_DB r st) := by
  obtain ⟨hs, ho, hb⟩ := hInv
  unfold createCryptoID_DB
  by_cases hk : r.privateKey.isSome = true
  · rw [if_pos hk]
    refine ⟨?_, ho, ?_⟩
    · intro x hx
      rcases mem_storePut _ _ _ hx with rfl | ⟨hmem, _⟩
      · exact hk
      · exact hs x hmem
    · intro x hx
      rcases mem_storePut _ _ _ hx with rfl | ⟨hmem, _⟩
      · exact h1 hk
      · exact hb x hmem
  · rw [if_neg hk]
    have hnone : r.privateKey = none := by
      cases hpk : r.privateKey with
      | none => rfl
      | some a => rw [hpk] at hk; simp at hk
    refine ⟨hs, ?_, ?_⟩
    · intro x hx
      rcases mem_storePut _ _ _ hx with rfl | ⟨hmem, _⟩
      · exact hnone
      · exact ho x hmem
    · intro x hx
      have hxid : x.identifier ≠ (cryptoKeyRecordIn r).identifier :=
        (storeGet_eq_none_iff _ _).mp (h2 hnone) x hx
      exact storeGet_storePut_none _ _ _ hxid (hb x hx)

theorem updateCryptoID_DB_preserves (p : CryptoIDRecordPartial) (m : MergeMode)
    (st st' : DBState) (hInv : PartitionInv st)
    (h : updateCryptoID_DB p m st = .ok st') : PartitionInv st' := by
  obtain ⟨hs, ho, hb⟩ := hInv
  unfold updateCryptoID_DB at h
  split at h
  next old hself =>
    obtain ⟨holdMem, holdId⟩ := storeGet_eq_some _ _ _ hself
    split at h
    next hm =>
      obtain rfl := (Except.ok.inj h).symm
      refine ⟨?_, ho, ?_⟩
      · intro x hx
        rcases mem_storePut _ _ _ hx with rfl | ⟨hmem, _⟩
        · exact hm
        · exact hs x hmem
      · intro x hx
        rcases mem_storePut _ _ _ hx with rfl | ⟨hmem, _⟩
        · rw [mergeCryptoID_identifier]
          exact hb old holdMem
        · exact hb x hmem
    next hm =>
      obtain rfl := (Except.ok.inj h).symm
      have hmn : (mergeCryptoID old p m).privateKey = none := by
        cases hpk : (mergeCryptoID old p m).privateKey with
        | none => rfl
        | some a => rw [hpk] at hm; simp at hm
      refine ⟨?_, ?_, ?_⟩
      · intro x hx
        exact hs x (mem_storeDelete _ _ _ hx).1
      · intro x hx
        rcases mem_storePut _ _ _ hx with rfl | ⟨hmem, _⟩
        · exact hmn
        · exact ho x hmem
      · intro x hx
        obtain ⟨hmem, hne⟩ := mem_storeDelete _ _ _ hx
        have hxid : x.identifier ≠ (mergeCryptoID old p m).identifier := by
          rw [mergeCryptoID_identifier, holdId]
          exact hne
        exact storeGet_storePut_none _ _ _ hxid (hb x hmem)
  next hself =>
    split at h
    next old hothers =>
      obtain ⟨holdMem, holdId⟩ := storeGet_eq_some _ _ _ hothers
      split at h
      next hm =>
        obtain rfl := (Except.ok.inj h).symm
        refine ⟨?_, ?_, ?_⟩
        · intro x hx
          rcases mem_storePut _ _ _ hx with rfl | ⟨hmem, _⟩
          · exact hm
          · exact hs x hmem
        · intro x hx
          exact ho x (mem_storeDelete _ _ _ hx).1
        · intro x hx
          rcases mem_storePut _ _ _ hx with rfl | ⟨hmem, _⟩
          · rw [mergeCryptoID_identifier, holdId]
            exact storeGet_storeDelete_self _ _
          · exact storeGet_storeDelete_none _ _ _ (hb x hmem)
      next hm =>
        obtain rfl := (Except.ok.inj h).symm
        have hmn : (mergeCryptoID old p m).privateKey = none := by
          cases hpk : (mergeCryptoID old p m).privateKey with
          | none => rfl
          | some a => rw [hpk] at hm; simp at hm
        refine ⟨hs, ?_, ?_⟩
        · intro x hx
          rcases mem_storePut _ _ _ hx with rfl | ⟨hmem, _⟩
          · exact hmn
          · exact ho x hmem
        · intro x hx
          have hxid : x.identifier ≠ (mergeCryptoID old p m).identifier := by
            rw [mergeCryptoID_identifier, holdId]
            exact (storeGet_eq_none_iff _ _).mp hself x hx
          exact storeGet_storePut_none _ _ _ hxid (hb x hx)
    next hothers =>
      simp at h

theorem deleteCryptoID_DB_preserves (id : IdObj) (st : DBState)
    (hInv : PartitionInv st) : PartitionInv (deleteCryptoID_DB id st) := by
  obtain ⟨hs, ho, hb⟩ := hInv
  unfold deleteCryptoID_DB
  refine ⟨?_, ?_, ?_⟩
  · intro x hx
    exact hs x (mem_storeDelete _ _ _ hx).1
  · intro x hx
    exact ho x (mem_storeDelete _ _ _ hx).1
  · intro x hx
    obtain ⟨hmem, _⟩ := mem_storeDelete _ _ _ hx
    exact storeGet_storeDelete_none _ _ _ (hb x hmem)

theorem update_move_counts (p : CryptoIDRecordPartial) (m : MergeMode)
    (st st' : DBState) (old : CryptoIDRecordDb) (hInv : PartitionInv st)
    (hothers : storeGet st.others p.identifier.toText = some old)
    (hp : p.privateKey.isSome = true)
    (h : updateCryptoID_DB p m st = .ok st') :
    storeCount st'.self p.identifier.toText = 1 ∧
    storeCount st'.others p.identifier.toText = 0 := by
  obtain ⟨hs, ho, hb⟩ := hInv
  have hself : storeGet st.self p.identifier.toText = none := by
    cases hsg : storeGet st.self p.identifier.toText with
    | none => rfl
    | some r =>
      obtain ⟨hrmem, hrid⟩ := storeGet_eq_some _ _ _ hsg
      have hbn := hb r hrmem
      rw [hrid, hothers] at hbn
      cases hbn
  have hmerged : (mergeCryptoID old p m).privateKey.isSome = true := by
    rw [mergeCryptoID_privateKey]
    cases hpp : p.privateKey with
    | none => rw [hpp] at hp; cases hp
    | some a => simp [Option.or]
  unfold updateCryptoID_DB at h
  split at h
  next old' hsg =>
    rw [hself] at hsg
    cases hsg
  next =>
    split at h
    next old' hsg =>
      rw [hothers] at hsg
      obtain rfl := Option.some.inj hsg
      split at h
      next hm =>
        obtain rfl := (Except.ok.inj h).symm
        have hid : (mergeCryptoID old p m).identifier = p.identifier.toText := by
          rw [mergeCryptoID_identifier]
          exact (storeGet_eq_some _ _ _ hothers).2
        constructor
        · rw [← hid]
          exact storeCount_storePut st.self (mergeCryptoID old p m)
        · exact storeCount_storeDelete st.others _
      next hm => exact absurd hmerged hm
    next hsg =>
      rw [hothers] at hsg
      cases hsg

/-- C2 counterexample: over the operations modelled from the spec, the
partition invariant does not hold in every reachable state.  `put` is a
blind upsert into the routed partition, so creating a record with a
private key and then creating a record with the same identifier without
one reaches a state where the identifier is present in both `self` and
`others` at once. -/
theorem c2_counterexample :
    ¬ PartitionInv (runOps [DBOp.create recWithKey, DBOp.create recNoKey]) := by
  decide

/-- C2 amended: the partition invariant (private key handle ⇔ stored in
`self`, absence ⇔ `others`, never both) is preserved by `updateCryptoID_DB`
and `deleteCryptoID_DB`, and by `createCryptoID_DB` provided the created
identifier is not already stored in the opposite partition; and after
`updateCryptoID_DB` adds a private key to a record previously in `others`,
exactly one copy exists, in `self`, and zero copies in `others`. -/
theorem c2_partition :
    (∀ r st, PartitionInv st →
      (r.privateKey.isSome = true →
        storeGet st.others (cryptoKeyRecordIn r).identifier = none) →
      (r.privateKey = none →
        storeGet st.self (cryptoKeyRecordIn r).identifier = none) →
      PartitionInv (createCryptoID_DB r st)) ∧
    (∀ p m st st', PartitionInv st → updateCryptoID_DB p m st = .ok st' →
      PartitionInv st') ∧
    (∀ id st, PartitionInv st → PartitionInv (deleteCryptoID_DB id st)) ∧
    (∀ p m st st' old, PartitionInv st →
      storeGet st.others p.identifier.toText = some old →
      p.privateKey.isSome = true →
      updateCryptoID_DB p m st = .ok st' →
      storeCount st'.self p.identifier.toText = 1 ∧
      storeCount st'.others p.identifier.toText = 0) :=
  ⟨createCryptoID_DB_preserves, updateCryptoID_DB_preserves,
   deleteCryptoID_DB_preserves, update_move_counts⟩

/-- C2 amended, witnessed on the concrete move scenario: creating
`recNoKey` in the fresh store satisfies the invariant, and the key-adding
update leaves exactly one copy in `self` and none in `others`. -/
theorem c2_partition_witness :
    PartitionInv (createCryptoID_DB recNoKey emptyDB) ∧
    storeCount stAfterMove.self sampleEcId.toText = 1 ∧
    storeCount stAfterMove.others sampleEcId.toText = 0 :=
  ⟨c2_partition.1 recNoKey emptyDB (by decide) (by decide) (by decide),
   (c2_partition.2.2.2 addKeyPartial MergeMode.overwrite stOthersOnly stAfterMove
      (cryptoKeyRecordIn recNoKey) (by decide) (by decide) (by decide) (by decide)).1,
   (c2_partition.2.2.2 addKeyPartial MergeMode.overwrite stOthersOnly stAfterMove
      (cryptoKeyRecordIn recNoKey) (by decide) (by decide) (by decide) (by decide)).2⟩

theorem update_notFound (p : CryptoIDRecordPartial) (m : MergeMode) (st : DBState)
    (h1 : storeGet st.self p.identifier.toText = none)
    (h2 : storeGet st.others p.identifier.toText = none) :
    updateCryptoID_DB p m st = .error JsError.notFoundError := by
  unfold updateCryptoID_DB
  rw [h1, h2]

theorem update_notFound_state (p : CryptoIDRecordPartial) (m : MergeMode) (st : DBState)
    (h1 : storeGet st.self p.identifier.toText = none)
    (h2 : storeGet st.others p.identifier.toText = none) :
    applyOp st (DBOp.update p m) = st := by
  show (match updateCryptoID_DB p m st with
    | Except.ok st' => st'
    | Except.error _ => st) = st
  rw [update_notFound p m st h1 h2]

theorem delete_missing_noop (id : IdObj) (st : DBState)
    (h1 : storeGet st.self id.toText = none)
    (h2 : storeGet st.others id.toText = none) :
    deleteCryptoID_DB id st = st := by
  unfold deleteCryptoID_DB
  have e1 : storeDelete st.self id.toText = st.self := by
    unfold storeDelete
    rw [List.filter_eq_self]
    intro a ha
    simpa using (storeGet_eq_none_iff _ _).mp h1 a ha
  have e2 : storeDelete st.others id.toText = st.others := by
    unfold storeDelete
    rw [List.filter_eq_self]
    intro a ha
    simpa using (storeGet_eq_none_iff _ _).mp h2 a ha
  rw [e1, e2]

/-- C6: `updateCryptoID_DB` invoked with an identifier present in neither
partition fails with `NotFoundError` and leaves the storage state
unchanged, while `deleteCryptoID_DB` on such an identifier succeeds as a
no-op, returning the state it was given. -/
theorem c6_notFound :
    (∀ p m st, storeGet st.self p.identifier.toText = none →
      storeGet st.others p.identifier.toText = none →
      updateCryptoID_DB p m st = .error JsError.notFoundError) ∧
    (∀ p m st, storeGet st.self p.identifier.toText = none →
      storeGet st.others p.identifier.toText = none →
      applyOp st (DBOp.update p m) = st) ∧
    (∀ id st, storeGet st.self id.toText = none →
      storeGet st.others id.toText = none →
      deleteCryptoID_DB id st = st) :=
  ⟨update_notFound, update_notFound_state, delete_missing_noop⟩

/-- C6, witnessed: on the state holding only `recNoKey`, updating or
deleting the unknown person-derived identifier behaves as claimed. -/
theorem c6_notFound_witness :
    updateCryptoID_DB { addKeyPartial with identifier := samplePersonId }
        MergeMode.overwrite stOthersOnly = .error JsError.notFoundError ∧
    applyOp stOthersOnly
        (DBOp.update { addKeyPartial with identifier := samplePersonId }
          MergeMode.overwrite) = stOthersOnly ∧
    deleteCryptoID_DB samplePersonId stOthersOnly = stOthersOnly :=
  ⟨c6_notFound.1 { addKeyPartial with identifier := samplePersonId }
      MergeMode.overwrite stOthersOnly (by decide) (by decide),
   c6_notFound.2.1 { addKeyPartial with identifier := samplePersonId }
      MergeMode.overwrite stOthersOnly (by decide) (by decide),
   c6_notFound.2.2 samplePersonId stOthersOnly (by decide) (by decide)⟩

theorem queryCryptoID_byId_selfHit (id : IdObj) (st : DBState) (r : CryptoIDRecordDb)
    (h : storeGet st.self id.toText = some r) :
    queryCryptoID_byId id st = (cryptoKeyRecordOut r).map (fun p => some p.1) := by
  unfold queryCryptoID_byId
  rw [h]

theorem queryCryptoID_byId_othersHit (id : IdObj) (st : DBState) (r : CryptoIDRecordDb)
    (h1 : storeGet st.self id.toText = none)
    (h2 : storeGet st.others id.toText = some r) :
    queryCryptoID_byId id st = (cryptoKeyRecordOut r).map (fun p => some p.1) := by
  unfold queryCryptoID_byId
  rw [h1, h2]

theorem queryCryptoID_byId_missing (id : IdObj) (st : DBState)
    (h1 : storeGet st.self id.toText = none)
    (h2 : storeGet st.others id.toText = none) :
    queryCryptoID_byId id st = .ok none := by
  unfold queryCryptoID_byId
  rw [h1, h2]

theorem scanFirst_some_sat (q : CryptoIDRecord → Bool) (l : List CryptoIDRecordDb)
    (rec : CryptoIDRecord) (h : scanFirst q l = .ok (some rec)) : q rec = true := by
  induction l with
  | nil => simp [scanFirst] at h
  | cons r rest ih =>
    unfold scanFirst at h
    split at h
    next e hd => cases h
    next pr hd =>
      split at h
      next hq =>
        obtain rfl := Option.some.inj (Except.ok.inj h)
        exact hq
      next hq => exact ih h

theorem scanFirst_all_unsat (q : CryptoIDRecord → Bool) (l : List CryptoIDRecordDb)
    (h : ∀ x ∈ l, ∃ pr, cryptoKeyRecordOut x = .ok pr ∧ q pr.1 = false) :
    scanFirst q l = .ok none := by
  induction l with
  | nil => rfl
  | cons r rest ih =>
    obtain ⟨pr, hok, hq⟩ := h r (by simp)
    unfold scanFirst
    rw [hok]
    simp only [hq, Bool.false_eq_true, if_false]
    exact ih (fun x hx => h x (by simp [hx]))

theorem scanFirst_headHit (q : CryptoIDRecord → Bool) (r : CryptoIDRecordDb)
    (rest : List CryptoIDRecordDb) (pr : CryptoIDRecord × CryptoIDRecordDb)
    (hok : cryptoKeyRecordOut r = .ok pr) (hq : q pr.1 = true) :
    scanFirst q (r :: rest) = .ok (some pr.1) := by
  unfold scanFirst
  rw [hok]
  simp only [hq, if_true]

/-- C7: given an identifier, the query encodes it and performs direct gets
against `self` first and `others` second, returning the first hit decoded;
a miss in both partitions yields an empty result without exception.  Given
a predicate, the linear scan decodes each candidate in order and returns
the first record satisfying the predicate: a returned record satisfies it,
a head candidate that decodes to a match is returned immediately, and when
every candidate decodes to a non-match the result is empty without
exception. -/
theorem c7_query :
    (∀ id st r, storeGet st.self id.toText = some r →
      queryCryptoID_byId id st = (cryptoKeyRecordOut r).map (fun p => some p.1)) ∧
    (∀ id st r, storeGet st.self id.toText = none →
      storeGet st.others id.toText = some r →
      queryCryptoID_byId id st = (cryptoKeyRecordOut r).map (fun p => some p.1)) ∧
    (∀ id st, storeGet st.self id.toText = none →
      storeGet st.others id.toText = none →
      queryCryptoID_byId id st = .ok none) ∧
    (∀ q st rec, queryCryptoID_byPred q st = .ok (some rec) → q rec = true) ∧
    (∀ q r rest pr, cryptoKeyRecordOut r = .ok pr → q pr.1 = true →
      scanFirst q (r :: rest) = .ok (some pr.1)) ∧
    (∀ q st, (∀ x ∈ st.self ++ st.others,
        ∃ pr, cryptoKeyRecordOut x = .ok pr ∧ q pr.1 = false) →
      queryCryptoID_byPred q st = .ok none) :=
  ⟨queryCryptoID_byId_selfHit, queryCryptoID_byId_othersHit, queryCryptoID_byId_missing,
   fun q st rec h => scanFirst_some_sat q (st.self ++ st.others) rec h,
   scanFirst_headHit,
   fun q st h => scanFirst_all_unsat q (st.self ++ st.others) h⟩

/-- C7, witnessed on concrete states: an `others` hit, a miss on the empty
store, a satisfied predicate scan, and an empty predicate scan. -/
theorem c7_query_witness :
    queryCryptoID_byId sampleEcId stOthersOnly =
      (cryptoKeyRecordOut (cryptoKeyRecordIn recNoKey)).map (fun p => some p.1) ∧
    queryCryptoID_byId sampleEcId emptyDB = .ok none ∧
    (fun _ : CryptoIDRecord => true) recNoKey = true ∧
    queryCryptoID_byPred (fun _ => false) emptyDB = .ok none :=
  ⟨c7_query.2.1 sampleEcId stOthersOnly (cryptoKeyRecordIn recNoKey)
      (by decide) (by decide),
   c7_query.2.2.1 sampleEcId emptyDB (by decide) (by decide),
   c7_query.2.2.2.1 (fun _ => true) stOthersOnly recNoKey (by decide),
   c7_query.2.2.2.2.2 (fun _ => false) emptyDB
      (fun x hx => absurd hx (by simp [emptyDB]))⟩

/-- C5 (code bug): the `db` closure (lines 29-46) memoizes the resolved
handle, not the in-flight promise.  Under the racy schedule — both callers
run the synchronous body before either `openDB` resolves — the storage
engine is opened twice and the two callers obtain different handles,
contradicting the claimed single-flight coalescing; under the serialized
schedule the second caller does reuse the memoized handle and the engine
is opened exactly once. -/
theorem c5_init_not_single_flight :
    (runInit raceSchedule).openCount = 2 ∧
    (runInit raceSchedule).result0 = some (handleFor false) ∧
    (runInit raceSchedule).result1 = some (handleFor true) ∧
    handleFor false ≠ handleFor true ∧
    (runInit seqSchedule).openCount = 1 ∧
    (runInit seqSchedule).result0 = (runInit seqSchedule).result1 := by decide

/-- C8: from previous version 0 the upgrade creates exactly the three
partitions `self`, `others`, `profiles`, each keyed inline on the
`identifier` field (which holds the encoded identifier string), plus the
single non-unique `network` index on `profiles`; and for a store whose
previous version is N ≥ 1 the upgrade callback skips every step ≤ N,
leaving the schema untouched. -/
theorem c8_upgrade :
    upgrade emptySchema 0 =
      { stores := [
        { name := "self", keyPath := "identifier", indexes := [] },
        { name := "others", keyPath := "identifier", indexes := [] },
        { name := "profiles", keyPath := "identifier",
          indexes := [{ name := "network", keyPath := "network", unique := false }] }] } ∧
    (∀ s n, 1 ≤ n → upgrade s n = s) := by
  constructor
  · rfl
  · intro s n h
    unfold upgrade
    rw [if_neg (by omega)]

/-- C8, witnessed: re-running the upgrade callback on the version-1 schema
changes nothing. -/
theorem c8_upgrade_witness :
    upgrade (upgrade emptySchema 0) 1 = upgrade emptySchema 0 ∧
    (upgrade emptySchema 0).stores.length = 3 :=
  ⟨c8_upgrade.2 (upgrade emptySchema 0) 1 (by decide),
   by rw [c8_upgrade.1]; rfl⟩
